import Mathlib

/-!
# SparkleClean booking app: the booking / payment core of `script.js`

A shallow embedding of the logic of `src/script.js` (validation, the
booking and payment handlers, the booking store and its persistence, the
dashboard statistics), followed by theorems about it.

Conventions of the embedding

* JavaScript strings are Lean `String`s (well-formed UTF-16 text).  The
  regular expressions of the source carry no `u` flag and so work on UTF-16
  code units; every class they use either excludes all code units of a
  non-BMP character or accepts all of them under `+`, so matching per
  character gives the same answer.  `.length` counts code units and is
  modelled by `jsLength`.
* Numbers that the program handles (ids, prices, time values) are integers.
* The DOM is reduced to the form values a handler reads; rendering is left out.
* Objects are handled by value.  The only object the source shares between two
  places is the current draft, which `handlePaymentSubmit` pushes onto the
  store; the only later writes to it store the values it already has.
-/

namespace SparkleClean

/-! ## JavaScript strings -/

/-- The characters matched by `\s` in a JavaScript regular expression, which are
also the characters removed by `String.prototype.trim` (WhiteSpace and
LineTerminator of ECMAScript). -/
def isJsWhiteSpace (c : Char) : Bool :=
  let n := c.toNat
  n == 0x09 || n == 0x0A || n == 0x0B || n == 0x0C || n == 0x0D || n == 0x20 ||
  n == 0xA0 || n == 0x1680 || (0x2000 ≤ n && n ≤ 0x200A) ||
  n == 0x2028 || n == 0x2029 || n == 0x202F || n == 0x205F || n == 0x3000 || n == 0xFEFF

/-- The characters matched by `\d` in a JavaScript regular expression: `0` to `9`. -/
def isJsDigit (c : Char) : Bool :=
  0x30 ≤ c.toNat && c.toNat ≤ 0x39

/-- The value of `s.length`: the number of UTF-16 code units of `s`. -/
def jsLength (s : String) : Nat :=
  (s.data.map (fun c => if c.toNat < 0x10000 then 1 else 2)).sum

/-- The value of `s.trim()`. -/
def jsTrim (s : String) : String :=
  String.mk ((s.data.dropWhile isJsWhiteSpace).reverse.dropWhile isJsWhiteSpace).reverse

/-- The value of `s.replace(/\s/g, '')`. -/
def removeWhiteSpace (s : String) : String :=
  String.mk (s.data.filter (fun c => !isJsWhiteSpace c))

/-- Truthiness of a string value: every string but the empty one. -/
def strTruthy (s : String) : Bool :=
  !s.data.isEmpty

/-- Truthiness of a value that is a string or `undefined`. -/
def optTruthy : Option String → Bool
  | none => false
  | some s => strTruthy s

/-! ## Regular expressions

The patterns of the source, as syntax trees, with a matcher by derivatives.
Every pattern of the source is anchored by `^` and `$` and is used with
`test`, so only whole-string matching is needed. -/

/-- Regular expressions over characters, with character classes as predicates. -/
inductive Regex where
  | fail : Regex
  | eps : Regex
  | cls : (Char → Bool) → Regex
  | seq : Regex → Regex → Regex
  | alt : Regex → Regex → Regex
  | star : Regex → Regex

namespace Regex

/-- A single literal character. -/
def chr (c : Char) : Regex := cls (fun d => d == c)

/-- A character range such as `[1-9]`. -/
def range (lo hi : Char) : Regex := cls (fun d => lo.toNat ≤ d.toNat && d.toNat ≤ hi.toNat)

/-- The class `\d`. -/
def digit : Regex := cls isJsDigit

/-- The quantifier `+`. -/
def plus (r : Regex) : Regex := seq r (star r)

/-- The quantifier `{n}`. -/
def rep : Nat → Regex → Regex
  | 0, _ => eps
  | n + 1, r => seq r (rep n r)

/-- Whether the expression matches the empty string. -/
def nullable : Regex → Bool
  | fail => false
  | eps => true
  | cls _ => false
  | seq r s => nullable r && nullable s
  | alt r s => nullable r || nullable s
  | star _ => true

/-- The derivative of an expression by a character. -/
def deriv : Regex → Char → Regex
  | fail, _ => fail
  | eps, _ => fail
  | cls p, c => if p c then eps else fail
  | seq r s, c => if nullable r then alt (seq (deriv r c) s) (deriv s c) else seq (deriv r c) s
  | alt r s, c => alt (deriv r c) (deriv s c)
  | star r, c => seq (deriv r c) (star r)

/-- Whether the expression matches the whole list of characters. -/
def matchList : Regex → List Char → Bool
  | r, [] => nullable r
  | r, c :: cs => matchList (deriv r c) cs

/-- The value of `/^r$/.test(s)`. -/
def test (r : Regex) (s : String) : Bool := matchList r s.data

end Regex

/-- The pattern `/^[^\s@]+@[^\s@]+\.[^\s@]+$/` of `validateBooking`. -/
def emailRegex : Regex :=
  let notSpaceAt : Regex := Regex.cls (fun c => !(isJsWhiteSpace c || c == '@'))
  Regex.seq (Regex.plus notSpaceAt)
    (Regex.seq (Regex.chr '@')
      (Regex.seq (Regex.plus notSpaceAt)
        (Regex.seq (Regex.chr '.') (Regex.plus notSpaceAt))))

/-- The pattern `/^\d{16}$/` of `validatePayment`. -/
def cardNumberRegex : Regex := Regex.rep 16 Regex.digit

/-- The pattern `/^(0[1-9]|1[0-2])\/\d{2}$/` of `validatePayment`. -/
def expiryRegex : Regex :=
  Regex.seq
    (Regex.alt (Regex.seq (Regex.chr '0') (Regex.range '1' '9'))
               (Regex.seq (Regex.chr '1') (Regex.range '0' '2')))
    (Regex.seq (Regex.chr '/') (Regex.rep 2 Regex.digit))

/-- The pattern `/^\d{3}$/` of `validatePayment`. -/
def cvvRegex : Regex := Regex.rep 3 Regex.digit

/-! ## Dates

Time values are milliseconds since the epoch, `none` standing for the `NaN` of
an invalid date.  The clock, the local time zone and the parsing of strings
that are not ISO dates belong to the platform and are taken as a record. -/

/-- What the platform supplies to the `Date` calls of `validateBooking`. -/
structure Clock where
  /-- The time value of `new Date()`. -/
  now : Int
  /-- Local time minus UTC, in minutes (a zone with a fixed offset). -/
  utcOffsetMinutes : Int
  /-- The time value `new Date(s)` gives for a string that is not a valid
  `YYYY-MM-DD` date (the implementation-defined part of `Date.parse`). -/
  parseOther : String → Option Int

/-- Milliseconds per day. -/
def msPerDay : Int := 86400000

/-- The value of a decimal digit character. -/
def digitValue (c : Char) : Int := (c.toNat : Int) - 48

/-- Whether a year of the proleptic Gregorian calendar is a leap year. -/
def isLeapYear (y : Int) : Bool :=
  (y % 4 == 0 && y % 100 != 0) || y % 400 == 0

/-- Number of days of a month. -/
def daysInMonth (y m : Int) : Int :=
  if m == 2 then (if isLeapYear y then 29 else 28)
  else if m == 4 || m == 6 || m == 9 || m == 11 then 30
  else 31

/-- Days from 1970-01-01 to the given civil date. -/
def daysFromCivil (y m d : Int) : Int :=
  let y1 := if m ≤ 2 then y - 1 else y
  let era := y1 / 400
  let yoe := y1 - era * 400
  let mp := if m > 2 then m - 3 else m + 9
  let doy := (153 * mp + 2) / 5 + d - 1
  let doe := yoe * 365 + yoe / 4 - yoe / 100 + doy
  era * 146097 + doe - 719468

/-- The day number of a string of the form `YYYY-MM-DD` naming a date that
exists; `none` for every other string. -/
def parseIsoDate : List Char → Option Int
  | [y1, y2, y3, y4, '-', m1, m2, '-', d1, d2] =>
    if isJsDigit y1 && isJsDigit y2 && isJsDigit y3 && isJsDigit y4 &&
       isJsDigit m1 && isJsDigit m2 && isJsDigit d1 && isJsDigit d2 then
      let y := digitValue y1 * 1000 + digitValue y2 * 100 + digitValue y3 * 10 + digitValue y4
      let m := digitValue m1 * 10 + digitValue m2
      let d := digitValue d1 * 10 + digitValue d2
      if 1 ≤ m && m ≤ 12 && 1 ≤ d && d ≤ daysInMonth y m then some (daysFromCivil y m d) else none
    else none
  | _ => none

/-- The time value of `new Date(s)`: a date-only ISO string denotes midnight UTC
of that day. -/
def dateParse (clock : Clock) (s : String) : Option Int :=
  match parseIsoDate s.data with
  | some days => some (days * msPerDay)
  | none => clock.parseOther s

/-- The time value of a date after `setHours(0, 0, 0, 0)`: the start of its
local day. -/
def setHoursZero (clock : Clock) (t : Int) : Int :=
  let localTime := t + clock.utcOffsetMinutes * 60000
  localTime - localTime % msPerDay - clock.utcOffsetMinutes * 60000

/-- The comparison `a < b` of two dates, false when `a` is invalid. -/
def dateLess (a : Option Int) (b : Int) : Bool :=
  match a with
  | none => false
  | some t => decide (t < b)

/-! ## Data model -/

/-- The object literal `formData` of `handleBookingSubmit` (all properties but
`price`).  `timeSlot` is `undefined` when no radio button is checked; the seed
bookings have no `instructions` property. -/
structure FormData where
  serviceType : String
  bookingDate : String
  timeSlot : Option String
  customerName : String
  customerEmail : String
  customerPhone : String
  address : String
  instructions : Option String
  status : String
  paymentStatus : String
  id : Int
  createdAt : String
deriving DecidableEq

/-- A booking: `formData` with its `price`. -/
structure Booking extends FormData where
  price : Int
deriving DecidableEq

/-- The object `appState`. -/
structure AppState where
  currentPage : String
  bookings : List Booking
  currentBooking : Option Booking
  isXeroSynced : Bool
deriving DecidableEq

/-! ## Booking validation -/

/-- The statement `if (c) errors.push(m)`: the array afterwards. -/
def pushIf (c : Bool) (errors : List String) (m : String) : List String :=
  if c then errors ++ [m] else errors

/-- The array `errors` of `validateBooking` as it stands at line 196. -/
def validateBookingErrors (clock : Clock) (formData : FormData) : List String :=
  let errors : List String := []
  let errors := pushIf (!strTruthy formData.serviceType) errors "Please select a service type"
  let errors := pushIf (!strTruthy formData.bookingDate) errors "Please select a date"
  let errors := pushIf (!optTruthy formData.timeSlot) errors "Please select a time slot"
  let errors := pushIf (!strTruthy formData.customerName) errors "Please enter your name"
  let errors := pushIf (!strTruthy formData.customerEmail) errors "Please enter your email"
  let errors := pushIf (!strTruthy formData.customerPhone) errors "Please enter your phone number"
  let errors := pushIf (!strTruthy formData.address) errors "Please enter your address"
  let errors :=
    pushIf (strTruthy formData.customerEmail && !emailRegex.test formData.customerEmail) errors
      "Please enter a valid email address"
  let selectedDate := dateParse clock formData.bookingDate
  let today := setHoursZero clock clock.now
  let errors := pushIf (dateLess selectedDate today) errors "Please select a future date"
  errors

/-- The text `validateBooking` passes to `alert`, if it alerts. -/
def validateBookingAlert (clock : Clock) (formData : FormData) : Option String :=
  let errors := validateBookingErrors clock formData
  if errors.length > 0 then some ("Please fix the following errors:\n" ++ "\n".intercalate errors)
  else none

/-- The result of `validateBooking`. -/
def validateBooking (clock : Clock) (formData : FormData) : Bool :=
  let errors := validateBookingErrors clock formData
  if errors.length > 0 then false else true

/-! ## Pricing catalog

`prices[serviceType]` reads a property of an object literal: an own property,
or else a member inherited from `Object.prototype`, or else `undefined`. -/

/-- The property names every object literal inherits from `Object.prototype`.
Each of them holds a function (`__proto__` the prototype object itself), so a
truthy value that is neither a number nor a string. -/
def objectPrototypeKeys : List String :=
  ["constructor", "__defineGetter__", "__defineSetter__", "hasOwnProperty",
   "__lookupGetter__", "__lookupSetter__", "isPrototypeOf", "propertyIsEnumerable",
   "toString", "valueOf", "__proto__", "toLocaleString"]

/-- The outcome of reading a property of an object literal. -/
inductive Lookup (α : Type) where
  | own (a : α) : Lookup α
  | inherited (key : String) : Lookup α
  | undefined : Lookup α
deriving DecidableEq

/-- The value of `literal[key]`. -/
def objectGet {α : Type} (literal : List (String × α)) (key : String) : Lookup α :=
  match literal.lookup key with
  | some a => Lookup.own a
  | none => if objectPrototypeKeys.contains key then Lookup.inherited key else Lookup.undefined

/-- The value of `getServicePrice(serviceType)`: a number, or the inherited
member that `prices[serviceType]` found. -/
def getServicePrice (serviceType : String) : Lookup Int :=
  let prices : List (String × Int) := [("home", 89), ("office", 149), ("deep", 199)]
  match objectGet prices serviceType with
  | Lookup.own n => if n != 0 then Lookup.own n else Lookup.own 89
  | Lookup.inherited k => Lookup.inherited k
  | Lookup.undefined => Lookup.own 89

/-- The value of `getServiceName(serviceType)`: a string, or the inherited
member that `names[serviceType]` found. -/
def getServiceName (serviceType : String) : Lookup String :=
  let names : List (String × String) :=
    [("home", "Home Cleaning"), ("office", "Office Cleaning"), ("deep", "Deep Cleaning")]
  match objectGet names serviceType with
  | Lookup.own n => if strTruthy n then Lookup.own n else Lookup.own "Home Cleaning"
  | Lookup.inherited k => Lookup.inherited k
  | Lookup.undefined => Lookup.own "Home Cleaning"

/-! ## Persistence

The item `'sparkleCleanBookings'` of `localStorage` holds the text produced
by `JSON.stringify`.  It is represented by the JSON value that the text
denotes: an array of objects, each a list of properties.  The order of the
properties in the text is not tracked. -/

/-- The JSON values that occur as properties of a booking. -/
inductive JsonValue where
  | number (n : Int) : JsonValue
  | string (s : String) : JsonValue
deriving DecidableEq

/-- A JSON object: its properties. -/
abbrev JsonObject := List (String × JsonValue)

/-- The property list for an optional string: `JSON.stringify` leaves out a
property whose value is `undefined`. -/
def optionalProperty (key : String) : Option String → List (String × JsonValue)
  | none => []
  | some s => [(key, JsonValue.string s)]

/-- The object `JSON.stringify` writes for a booking. -/
def Booking.toJson (b : Booking) : JsonObject :=
  [("serviceType", JsonValue.string b.serviceType),
   ("bookingDate", JsonValue.string b.bookingDate)] ++
  optionalProperty "timeSlot" b.timeSlot ++
  [("customerName", JsonValue.string b.customerName),
   ("customerEmail", JsonValue.string b.customerEmail),
   ("customerPhone", JsonValue.string b.customerPhone),
   ("address", JsonValue.string b.address)] ++
  optionalProperty "instructions" b.instructions ++
  [("status", JsonValue.string b.status),
   ("paymentStatus", JsonValue.string b.paymentStatus),
   ("id", JsonValue.number b.id),
   ("createdAt", JsonValue.string b.createdAt),
   ("price", JsonValue.number b.price)]

/-- A string property that has to be there. -/
def getString (o : JsonObject) (key : String) : Option String :=
  match o.lookup key with
  | some (JsonValue.string s) => some s
  | _ => none

/-- A number property that has to be there. -/
def getNumber (o : JsonObject) (key : String) : Option Int :=
  match o.lookup key with
  | some (JsonValue.number n) => some n
  | _ => none

/-- A string property that may be missing (then read as `undefined`). -/
def getOptString (o : JsonObject) (key : String) : Option (Option String) :=
  match o.lookup key with
  | some (JsonValue.string s) => some (some s)
  | some (JsonValue.number _) => none
  | none => some none

/-- The booking that `JSON.parse` yields for an object; `none` when the object
does not have the properties of a booking with the types of the data model. -/
def Booking.ofJson (o : JsonObject) : Option Booking := do
  let serviceType ← getString o "serviceType"
  let bookingDate ← getString o "bookingDate"
  let timeSlot ← getOptString o "timeSlot"
  let customerName ← getString o "customerName"
  let customerEmail ← getString o "customerEmail"
  let customerPhone ← getString o "customerPhone"
  let address ← getString o "address"
  let instructions ← getOptString o "instructions"
  let status ← getString o "status"
  let paymentStatus ← getString o "paymentStatus"
  let id ← getNumber o "id"
  let createdAt ← getString o "createdAt"
  let price ← getNumber o "price"
  pure { serviceType, bookingDate, timeSlot, customerName, customerEmail, customerPhone,
         address, instructions, status, paymentStatus, id, createdAt, price }

/-- The bookings that `JSON.parse` yields for an array of objects, in the
order of the array. -/
def parseBookingArray : List JsonObject → Option (List Booking)
  | [] => some []
  | o :: os =>
    match Booking.ofJson o, parseBookingArray os with
    | some b, some bs => some (b :: bs)
    | _, _ => none

/-- The value of `JSON.stringify(appState.bookings)`. -/
def stringifyBookings (bookings : List Booking) : List JsonObject :=
  bookings.map Booking.toJson

/-- The browser state the core works on: `appState` and the item
`'sparkleCleanBookings'` of `localStorage` (`none` when the item is absent). -/
structure World where
  appState : AppState
  localStorage : Option (List JsonObject)
deriving DecidableEq

/-- The value of `JSON.parse(localStorage.getItem('sparkleCleanBookings')) || []`
(line 8).  For an absent item `getItem` gives `null`, which parses to `null`, and
`null || []` is `[]`; a stored array is truthy, the empty one too.  `none` when
a stored object is not a booking of the data model. -/
def parseStoredBookings (item : Option (List JsonObject)) : Option (List Booking) :=
  match item with
  | none => some []
  | some objects => parseBookingArray objects

/-- The object `appState` as the script creates it (lines 6 to 11). -/
def initialAppState (item : Option (List JsonObject)) : Option AppState :=
  (parseStoredBookings item).map fun bookings =>
    { currentPage := "home", bookings := bookings, currentBooking := none, isXeroSynced := false }

/-- The array `sampleBookings` of `loadSampleBookings`. -/
def sampleBookings : List Booking :=
  [ { id := 1, customerName := "John Smith", serviceType := "home",
      bookingDate := "2024-12-15", timeSlot := some "9:00 AM",
      address := "123 Main St, Anytown", price := 89,
      status := "confirmed", paymentStatus := "paid",
      customerEmail := "john@example.com", customerPhone := "555-0101",
      createdAt := "2024-12-01T10:00:00Z", instructions := none },
    { id := 2, customerName := "Sarah Johnson", serviceType := "office",
      bookingDate := "2024-12-16", timeSlot := some "11:00 AM",
      address := "456 Office Blvd, Business Park", price := 149,
      status := "pending", paymentStatus := "pending",
      customerEmail := "sarah@example.com", customerPhone := "555-0102",
      createdAt := "2024-12-02T14:30:00Z", instructions := none },
    { id := 3, customerName := "Mike Wilson", serviceType := "deep",
      bookingDate := "2024-12-17", timeSlot := some "3:00 PM",
      address := "789 Lakeview Dr, Suburbia", price := 199,
      status := "confirmed", paymentStatus := "paid",
      customerEmail := "mike@example.com", customerPhone := "555-0103",
      createdAt := "2024-12-03T09:15:00Z", instructions := none } ]

/-- The function `loadSampleBookings`. -/
def loadSampleBookings (w : World) : World :=
  if w.appState.bookings.length > 0 then w
  else
    let appState := { w.appState with bookings := sampleBookings }
    { appState := appState, localStorage := some (stringifyBookings appState.bookings) }

/-- The startup path: the script creates `appState` from the stored item, then
`DOMContentLoaded` runs `loadSampleBookings`. -/
def startup (item : Option (List JsonObject)) : Option World :=
  (initialAppState item).map fun appState =>
    loadSampleBookings { appState := appState, localStorage := item }

example : getServicePrice "deep" = Lookup.own 199 := by decide
example : getServicePrice "other" = Lookup.own 89 := by decide
example : getServicePrice "toString" = Lookup.inherited "toString" := by decide
example : (startup none).map (fun w => w.appState.bookings) = some sampleBookings := by decide
example : sampleBookings.mapM (fun b => Booking.ofJson b.toJson) = some sampleBookings := by decide

/-! ## Booking form -/

/-- The values of the controls of the booking form, as the handler finds them. -/
structure BookingForm where
  serviceType : String
  bookingDate : String
  /-- The value of the checked `timeSlot` radio button, if one is checked. -/
  timeSlot : Option String
  customerName : String
  customerEmail : String
  customerPhone : String
  address : String
  instructions : String

/-- One submission of the booking form: the form and what the clock gives to
the three reads of the handler. -/
structure BookingSubmission where
  form : BookingForm
  /-- The value of `Date.now()` at line 148. -/
  dateNow : Int
  /-- The value of `new Date().toISOString()` at line 149. -/
  createdAt : String
  /-- The clock as `validateBooking` reads it. -/
  clock : Clock

/-- The object `formData` built at lines 137 to 150. -/
def formDataOf (e : BookingSubmission) : FormData :=
  { serviceType := e.form.serviceType,
    bookingDate := e.form.bookingDate,
    timeSlot := e.form.timeSlot,
    customerName := jsTrim e.form.customerName,
    customerEmail := jsTrim e.form.customerEmail,
    customerPhone := jsTrim e.form.customerPhone,
    address := jsTrim e.form.address,
    instructions := some (jsTrim e.form.instructions),
    status := "pending",
    paymentStatus := "pending",
    id := e.dateNow,
    createdAt := e.createdAt }

/-- The function `handleBookingSubmit`.  The result is `none` when
`getServicePrice` returns an inherited member of `Object.prototype` instead of
a number: such a draft has no place in the data model, whose `price` is an
integer. -/
def handleBookingSubmit (e : BookingSubmission) (w : World) : Option World :=
  let formData := formDataOf e
  if !validateBooking e.clock formData then some w
  else
    match getServicePrice formData.serviceType with
    | Lookup.own price =>
      let booking : Booking := { toFormData := formData, price := price }
      some { w with appState := { w.appState with currentBooking := some booking } }
    | _ => none

/-! ## Payment -/

/-- The object `paymentData` of `handlePaymentSubmit`; for the form, the raw
values of its four controls. -/
structure PaymentData where
  cardNumber : String
  expiryDate : String
  cvv : String
  cardName : String
deriving DecidableEq

/-- The array `errors` of `validatePayment` as it stands at line 300. -/
def validatePaymentErrors (paymentData : PaymentData) : List String :=
  let errors : List String := []
  let cardNumber := removeWhiteSpace paymentData.cardNumber
  let errors :=
    pushIf (!cardNumberRegex.test cardNumber) errors "Please enter a valid 16-digit card number"
  let errors :=
    pushIf (!expiryRegex.test paymentData.expiryDate) errors
      "Please enter expiry date in MM/YY format"
  let errors := pushIf (!cvvRegex.test paymentData.cvv) errors "Please enter a valid 3-digit CVV"
  let errors := pushIf (jsLength paymentData.cardName < 3) errors "Please enter the name on card"
  errors

/-- The result of `validatePayment`. -/
def validatePayment (paymentData : PaymentData) : Bool :=
  let errors := validatePaymentErrors paymentData
  if errors.length > 0 then false else true

/-- The values `handlePaymentSubmit` and `processPaymentSimulation` pass around. -/
inductive JsValue where
  | undefined : JsValue
  | boolean (b : Bool) : JsValue
  /-- A promise, with the value it resolves to once its timer has fired. -/
  | promise (resolvesTo : Bool) : JsValue
deriving DecidableEq

/-- The conversion to boolean that `if (...)` applies: every object is truthy, a
promise too, whatever it resolves to. -/
def JsValue.truthy : JsValue → Bool
  | JsValue.undefined => false
  | JsValue.boolean b => b
  | JsValue.promise _ => true

/-- The scale of `Math.random()`: a draw is `random / 2 ^ 53` for a natural
number `random < 2 ^ 53`. -/
def randomScale : Nat := 2 ^ 53

/-- The test `Math.random() < 0.9` on a draw `random / 2 ^ 53`.  The double
nearest to 0.9 is `8106479329266893 / 2 ^ 53`, and a natural number is below
`8106479329266893` exactly when ten times it is below `9 * 2 ^ 53`. -/
def isSuccess (random : Nat) : Bool :=
  decide (10 * random < 9 * randomScale)

/-- The function `processPaymentSimulation`: it returns a promise at once; the
timer callback, 1500 ms later, draws the random number and resolves the promise
to `true` or (after an alert) to `false`. -/
def processPaymentSimulation (_paymentData : PaymentData) (random : Nat) : JsValue :=
  JsValue.promise (isSuccess random)

/-- The object `invoiceData` of `sendInvoiceToXero`. -/
structure InvoiceData where
  invoiceId : String
  customerName : String
  customerEmail : String
  customerPhone : String
  service : Lookup String
  date : String
  time : Option String
  amount : Int
  address : String
  status : String
  dateSent : String

/-- The function `sendInvoiceToXero`: the invoice it returns and the state it
leaves; `dateNow` is the value of `Date.now()` and `dateSent` that of
`new Date().toISOString()`. -/
def sendInvoiceToXero (booking : Booking) (dateNow : Int) (dateSent : String)
    (appState : AppState) : InvoiceData × AppState :=
  let invoiceData : InvoiceData :=
    { invoiceId := "INV-" ++ toString dateNow,
      customerName := booking.customerName,
      customerEmail := booking.customerEmail,
      customerPhone := booking.customerPhone,
      service := getServiceName booking.serviceType,
      date := booking.bookingDate,
      time := booking.timeSlot,
      amount := booking.price,
      address := booking.address,
      status := "paid",
      dateSent := dateSent }
  (invoiceData, { appState with isXeroSynced := true })

/-- One submission of the payment form: the raw values of its controls, the
number the timer callback of `processPaymentSimulation` draws, and the clock
reads of `sendInvoiceToXero`. -/
structure PaymentSubmission where
  form : PaymentData
  random : Nat
  dateNow : Int
  dateSent : String

/-- The object `paymentData` built at lines 237 to 242. -/
def paymentDataOf (e : PaymentSubmission) : PaymentData :=
  { cardNumber := jsTrim e.form.cardNumber,
    expiryDate := jsTrim e.form.expiryDate,
    cvv := jsTrim e.form.cvv,
    cardName := jsTrim e.form.cardName }

/-- The function `handlePaymentSubmit`. -/
def handlePaymentSubmit (e : PaymentSubmission) (w : World) : World :=
  let paymentData := paymentDataOf e
  if !validatePayment paymentData then w
  else if (processPaymentSimulation paymentData e.random).truthy then
    match w.appState.currentBooking with
    | some currentBooking =>
      let currentBooking : Booking := { currentBooking with paymentStatus := "paid" }
      let currentBooking : Booking := { currentBooking with status := "confirmed" }
      let appState := { w.appState with currentBooking := some currentBooking }
      let appState := { appState with bookings := appState.bookings ++ [currentBooking] }
      let localStorage := some (stringifyBookings appState.bookings)
      let appState := (sendInvoiceToXero currentBooking e.dateNow e.dateSent appState).2
      { appState := appState, localStorage := localStorage }
    | none => w
  else w

/-! ## Xero synchronisation -/

/-- What a call of `syncWithXero` leaves behind: a notification, or a timer
holding the bookings selected. -/
inductive SyncResult where
  | info (message : String) : SyncResult
  | timer (unpaidBookings : List Booking) : SyncResult
deriving DecidableEq

/-- The function `syncWithXero` up to its return. -/
def syncWithXero (appState : AppState) : SyncResult :=
  let unpaidBookings := appState.bookings.filter (fun b => b.paymentStatus == "paid")
  if unpaidBookings.length == 0 then SyncResult.info "No new invoices to sync with Xero"
  else SyncResult.timer unpaidBookings

/-- The timer callback of `syncWithXero`, 2000 ms later: the number it reports
in its notification and the state it leaves. -/
def syncWithXeroTimeout (unpaidBookings : List Booking) (appState : AppState) : Nat × AppState :=
  (unpaidBookings.length, { appState with isXeroSynced := true })

/-- A call of `syncWithXero` followed, when it set a timer, by the callback of
that timer: the number of invoices the callback reports (`none` when the call
ended with the notification that there is nothing to sync) and the state
`appState` is left in. -/
def syncWithXeroAndTimer (appState : AppState) : Option Nat × AppState :=
  match syncWithXero appState with
  | SyncResult.info _ => (none, appState)
  | SyncResult.timer unpaidBookings =>
    let fired := syncWithXeroTimeout unpaidBookings appState
    (some fired.1, fired.2)

/-! ## Dashboard -/

/-- The three numbers `updateDashboardStats` writes to the page. -/
structure DashboardStats where
  totalBookings : Int
  pendingPayments : Int
  totalRevenue : Int
deriving DecidableEq

/-- The function `updateDashboardStats`. -/
def updateDashboardStats (appState : AppState) : DashboardStats :=
  let totalBookings := appState.bookings.length
  let pendingPayments := (appState.bookings.filter (fun b => b.paymentStatus == "pending")).length
  let totalRevenue :=
    (appState.bookings.filter (fun b => b.paymentStatus == "paid")).foldl
      (fun sum booking => sum + booking.price) 0
  { totalBookings := totalBookings, pendingPayments := pendingPayments, totalRevenue := totalRevenue }

/-- The booking `viewBooking` finds: `appState.bookings.find(b => b.id === bookingId)`. -/
def viewBooking (appState : AppState) (bookingId : Int) : Option Booking :=
  appState.bookings.find? (fun b => b.id == bookingId)

/-! ## The rule list of the booking validator, as the specification words it -/

/-- The local calendar day of the clock: the number of days from 1970-01-01 to
the local date of `now`. -/
def localDay (clock : Clock) : Int :=
  (clock.now + clock.utcOffsetMinutes * 60000) / msPerDay

/-- Whether the date of a draft is a past date: a calendar day before the local
calendar day of the clock.  A date equal to that day, or later, is not past; a
string that names no calendar day is not a past date either. -/
def isPastDate (clock : Clock) (bookingDate : String) : Bool :=
  match parseIsoDate bookingDate.data with
  | some day => decide (day < localDay clock)
  | none => false

/-- The rules of the booking validator in the order they are checked: the
message of each rule and the test that tells whether a draft violates it.  The
last rule is the one of the specification: the date must be today or later, in
local time. -/
def bookingRules (clock : Clock) : List (String × (FormData → Bool)) :=
  [ ("Please select a service type", fun d => d.serviceType == ""),
    ("Please select a date", fun d => d.bookingDate == ""),
    ("Please select a time slot", fun d => d.timeSlot == none || d.timeSlot == some ""),
    ("Please enter your name", fun d => d.customerName == ""),
    ("Please enter your email", fun d => d.customerEmail == ""),
    ("Please enter your phone number", fun d => d.customerPhone == ""),
    ("Please enter your address", fun d => d.address == ""),
    ("Please enter a valid email address",
      fun d => d.customerEmail != "" && !emailRegex.test d.customerEmail),
    ("Please select a future date", fun d => isPastDate clock d.bookingDate) ]

/-- The messages of the rules a draft violates, in the order of the rule list. -/
def violatedMessages (clock : Clock) (d : FormData) : List String :=
  ((bookingRules clock).filter (fun rule => rule.2 d)).map (fun rule => rule.1)

/-! ## The payment rules, as the specification words them -/

/-- Exactly `n` characters, each an ASCII digit. -/
def IsDigits (n : Nat) (cs : List Char) : Prop :=
  cs.length = n ∧ ∀ c ∈ cs, isJsDigit c = true

/-- Two digits forming a month from 01 to 12, a `/`, and two digits. -/
def IsExpiry (cs : List Char) : Prop :=
  ∃ m1 m2 y1 y2 : Char, cs = [m1, m2, '/', y1, y2] ∧
    isJsDigit m1 = true ∧ isJsDigit m2 = true ∧
    1 ≤ digitValue m1 * 10 + digitValue m2 ∧ digitValue m1 * 10 + digitValue m2 ≤ 12 ∧
    isJsDigit y1 = true ∧ isJsDigit y2 = true

/-! ## The e-mail rule, as the specification words it -/

/-- A non-empty run of characters with no whitespace and no `@` in it. -/
def IsPlainRun (l : List Char) : Prop :=
  l ≠ [] ∧ ∀ c ∈ l, isJsWhiteSpace c = false ∧ c ≠ '@'

/-- The form `L + '@' + D + '.' + T` with `L`, `D` and `T` each non-empty and
containing no whitespace and no `@`. -/
def IsEmailForm (cs : List Char) : Prop :=
  ∃ L D T : List Char, cs = L ++ '@' :: (D ++ '.' :: T) ∧
    IsPlainRun L ∧ IsPlainRun D ∧ IsPlainRun T

/-- No whitespace, exactly one `@`, which is not the first character, and some
`.` after the `@` that is neither directly after the `@` nor the last
character. -/
def IsEmailShape (cs : List Char) : Prop :=
  (∀ c ∈ cs, isJsWhiteSpace c = false) ∧ cs.count '@' = 1 ∧ cs.head? ≠ some '@' ∧
  ∃ i j : Nat, cs[i]? = some '@' ∧ cs[j]? = some '.' ∧ i + 1 < j ∧ j + 1 < cs.length

/-! ## The statistics, as the specification words them -/

/-- The number of bookings, the number of those whose payment is pending, and
the sum of the prices of those that are paid. -/
def statsOf (bookings : List Booking) : DashboardStats :=
  { totalBookings := bookings.length,
    pendingPayments := bookings.countP (fun b => b.paymentStatus = "pending"),
    totalRevenue := (bookings.map (fun b => if b.paymentStatus = "paid" then b.price else 0)).sum }

/-! ## Sample inputs -/

/-- A clock in a zone five hours behind UTC, at noon local time of 2024-12-15. -/
def noonWestOfUtc : Clock :=
  { now := 1734282000000, utcOffsetMinutes := -300, parseOther := fun _ => none }

/-- A booking form filled in completely, for 2024-12-15. -/
def filledForm : BookingForm :=
  { serviceType := "office", bookingDate := "2024-12-15", timeSlot := some "9:00 AM",
    customerName := "Ann Lee", customerEmail := "ann@example.com",
    customerPhone := "555-0199", address := "1 High St", instructions := "" }

/-- The well-formed card of the specification. -/
def goodCard : PaymentData :=
  { cardNumber := "4111111111111111", expiryDate := "12/26", cvv := "123", cardName := "Jane Doe" }

/-- A draft as `handleBookingSubmit` leaves it in `appState.currentBooking`. -/
def sampleDraft : Booking :=
  { serviceType := "office", bookingDate := "2024-12-20", timeSlot := some "9:00 AM",
    customerName := "Ann Lee", customerEmail := "ann@example.com",
    customerPhone := "555-0199", address := "1 High St", instructions := some "",
    status := "pending", paymentStatus := "pending", id := 1734282000000,
    createdAt := "2024-12-15T17:00:00.000Z", price := 149 }

/-- The seeded application holding `sampleDraft` as its current draft. -/
def worldWithDraft : World :=
  { appState := { currentPage := "payment", bookings := sampleBookings,
                  currentBooking := some sampleDraft, isXeroSynced := false },
    localStorage := some (stringifyBookings sampleBookings) }

/-- A payment submission whose random draw is 0.95: the authorization fails. -/
def failingPayment : PaymentSubmission :=
  { form := goodCard, random := 95 * (randomScale / 100), dateNow := 1734282060000,
    dateSent := "2024-12-15T17:01:00.000Z" }

/-- The filled-in form submitted at noon, local time, of 2024-12-15 in a zone
five hours behind UTC: a booking for the very day. -/
def sameDaySubmission : BookingSubmission :=
  { form := filledForm, dateNow := 1734282000000, createdAt := "2024-12-15T17:00:00.000Z",
    clock := noonWestOfUtc }

/-- A payment submission with the well-formed card and a draw of 0.25. -/
def goodPayment : PaymentSubmission :=
  { form := goodCard, random := randomScale / 4, dateNow := 1734282000000,
    dateSent := "2024-12-15T17:00:00.000Z" }

/-- A booking submission for 2024-12-20, at noon local time of 2024-12-15. -/
def firstSubmission : BookingSubmission :=
  { form := { filledForm with bookingDate := "2024-12-20" },
    dateNow := 1734282000000, createdAt := "2024-12-15T17:00:00.000Z", clock := noonWestOfUtc }

/-- Another customer's booking submission for which `Date.now()` returns the
same millisecond as for `firstSubmission`. -/
def sameMillisecondSubmission : BookingSubmission :=
  { form := { filledForm with bookingDate := "2024-12-21", customerName := "Bob Ray",
                              customerEmail := "bob@example.com", serviceType := "deep" },
    dateNow := 1734282000000, createdAt := "2024-12-15T17:00:00.000Z", clock := noonWestOfUtc }

/-- The application after a fresh start with empty storage, the first booking
submitted and paid, and the second one submitted, all within one millisecond:
the second draft is current and the store already holds the first booking,
which has the same id. -/
def worldBeforeSecondPayment : Option World :=
  (startup none).bind fun w0 =>
  (handleBookingSubmit firstSubmission w0).bind fun w1 =>
  handleBookingSubmit sameMillisecondSubmission (handlePaymentSubmit goodPayment w1)

/-- The first booking as stored. -/
def firstBooking : Booking :=
  { toFormData := { formDataOf firstSubmission with paymentStatus := "paid", status := "confirmed" },
    price := 149 }

/-- The second booking as promoted. -/
def secondBooking : Booking :=
  { toFormData := { formDataOf sameMillisecondSubmission with
                      paymentStatus := "paid", status := "confirmed" },
    price := 199 }

/-- The application after a fresh start with empty storage. -/
def seededWorld : World :=
  { appState := { currentPage := "home", bookings := sampleBookings, currentBooking := none,
                  isXeroSynced := false },
    localStorage := some (stringifyBookings sampleBookings) }

/-- The seeded application once `firstSubmission` is its current draft. -/
def worldAfterFirstSubmission : World :=
  { seededWorld with
    appState := { seededWorld.appState with
      currentBooking := some { toFormData := formDataOf firstSubmission, price := 149 } } }

/-! ## Histories of form submissions -/

/-- The states reached from the seeded store by submissions of the two forms
in which the clock is well behaved and no draft is paid twice.
`Reachable t paid w`: the state `w` is reached, `t` is the last value
`Date.now()` returned to a booking submission (3, the largest seed id, at
the start), and `paid` tells whether the current draft has been promoted.

* A booking submission is admitted when `Date.now()` returns more than `t`.
* A payment submission is admitted when the current draft has not been
  promoted yet, or when it does not pass `validatePayment`. -/
inductive Reachable : Int → Bool → World → Prop where
  | start (w : World) (h : startup none = some w) : Reachable 3 false w
  | booking (t : Int) (paid : Bool) (w w' : World) (e : BookingSubmission)
      (hw : Reachable t paid w) (hclock : t < e.dateNow)
      (hstep : handleBookingSubmit e w = some w') :
      Reachable e.dateNow (if validateBooking e.clock (formDataOf e) then false else paid) w'
  | payment (t : Int) (paid : Bool) (w : World) (e : PaymentSubmission)
      (hw : Reachable t paid w)
      (honce : paid = false ∨ validatePayment (paymentDataOf e) = false) :
      Reachable t (paid || (validatePayment (paymentDataOf e) && w.appState.currentBooking.isSome))
        (handlePaymentSubmit e w)

/-- What holds along such a history: the stored ids are pairwise distinct and at
most `t`, and so is the id of the current draft, which is not among the stored
ids as long as the draft has not been promoted. -/
def ClockInvariant (t : Int) (paid : Bool) (w : World) : Prop :=
  (w.appState.bookings.map (fun b => b.id)).Nodup ∧
  (∀ b ∈ w.appState.bookings, b.id ≤ t) ∧
  (∀ c, w.appState.currentBooking = some c →
    c.id ≤ t ∧ (paid = false → ∀ b ∈ w.appState.bookings, b.id ≠ c.id))

/-! ## The status invariant -/

/-- The invariant of a booking: `status` is 'confirmed' exactly when
`paymentStatus` is 'paid'. -/
def StatusConsistent (b : Booking) : Prop :=
  b.status = "confirmed" ↔ b.paymentStatus = "paid"

/-- The invariant for every stored booking and for the current draft. -/
def WorldConsistent (w : World) : Prop :=
  (∀ b ∈ w.appState.bookings, StatusConsistent b) ∧
  (∀ b, w.appState.currentBooking = some b → StatusConsistent b)

/-- The operations that change `appState`, the store or a booking: one run of
`handleBookingSubmit`, of `handlePaymentSubmit`, of `loadSampleBookings`, of
the timer callback of `syncWithXero` (the call itself changes nothing), or of
`sendInvoiceToXero`. -/
inductive Operation : World → World → Prop where
  | booking (e : BookingSubmission) (w w' : World) (h : handleBookingSubmit e w = some w') :
      Operation w w'
  | payment (e : PaymentSubmission) (w : World) : Operation w (handlePaymentSubmit e w)
  | seed (w : World) : Operation w (loadSampleBookings w)
  | syncTimer (unpaidBookings : List Booking) (w : World) :
      Operation w { w with appState := (syncWithXeroTimeout unpaidBookings w.appState).2 }
  | invoice (b : Booking) (dateNow : Int) (dateSent : String) (w : World) :
      Operation w { w with appState := (sendInvoiceToXero b dateNow dateSent w.appState).2 }

/-! ## Theorems -/

/-- C1 (the code departs from the claim): a payment submission that passes
`validatePayment` and whose simulated authorization resolves to failure (draw
0.95) still promotes the current draft: `processPaymentSimulation` returns a
promise, which `if` takes as true, so the draft is set to paid and confirmed,
appended to the store and persisted. -/
theorem handlePaymentSubmit_promotes_on_failed_authorization :
    validatePayment (paymentDataOf failingPayment) = true ∧
    isSuccess failingPayment.random = false ∧
    processPaymentSimulation (paymentDataOf failingPayment) failingPayment.random
      = JsValue.promise false ∧
    worldWithDraft.appState.currentBooking = some sampleDraft ∧
    (handlePaymentSubmit failingPayment worldWithDraft).appState.bookings
      = sampleBookings ++ [{ sampleDraft with paymentStatus := "paid", status := "confirmed" }] ∧
    (handlePaymentSubmit failingPayment worldWithDraft).localStorage
      ≠ worldWithDraft.localStorage ∧
    (handlePaymentSubmit failingPayment worldWithDraft).appState.currentBooking
      ≠ worldWithDraft.appState.currentBooking := by
  decide

theorem not_strTruthy (s : String) : (!strTruthy s) = (s == "") := by
  rcases s with ⟨cs⟩
  cases cs with
  | nil => rfl
  | cons c cs =>
    have h : (String.mk (c :: cs) == "") = false := by
      rw [beq_eq_false_iff_ne]
      intro h
      have := congrArg String.data h
      simp at this
    rw [h]
    rfl

theorem strTruthy_eq (s : String) : strTruthy s = (s != "") := by
  have h := not_strTruthy s
  rw [bne, ← h, Bool.not_not]

theorem not_optTruthy (o : Option String) :
    (!optTruthy o) = (o == none || o == some "") := by
  cases o with
  | none => rfl
  | some s =>
    have h : (some s == some "") = (s == "") := by
      by_cases hs : s = ""
      · subst hs; rfl
      · have h1 : (s == "") = false := by simpa using hs
        have h2 : (some s == some "") = false := by
          rw [beq_eq_false_iff_ne]
          intro h
          exact hs (Option.some.inj h)
        rw [h1, h2]
    rw [h]
    exact not_strTruthy s

theorem pushIf_eq (c : Bool) (errors : List String) (m : String) :
    pushIf c errors m = errors ++ (if c then [m] else []) := by
  cases c <;> simp [pushIf]

theorem filter_map_cons {α β : Type} (p : α → Bool) (f : α → β) (a : α) (l : List α) :
    ((a :: l).filter p).map f = (if p a then [f a] else []) ++ (l.filter p).map f := by
  cases h : p a <;> simp [List.filter_cons, h]

theorem date_test_eq_isPastDate (clock : Clock) (bookingDate : String)
    (hoffset : 0 ≤ clock.utcOffsetMinutes ∧ clock.utcOffsetMinutes < 1440)
    (hother : parseIsoDate bookingDate.data = none → clock.parseOther bookingDate = none) :
    dateLess (dateParse clock bookingDate) (setHoursZero clock clock.now)
      = isPastDate clock bookingDate := by
  obtain ⟨h1, h2⟩ := hoffset
  unfold dateParse isPastDate
  cases hp : parseIsoDate bookingDate.data with
  | none =>
    simp only [hother hp, dateLess]
  | some day =>
    simp only [dateLess, setHoursZero, localDay, msPerDay]
    rw [decide_eq_decide]
    constructor <;> intro h <;> omega

/-- Where the error list of `validateBooking` is the rule list of the
specification restricted to the violated rules: in a zone at or east of UTC
(offset less than a day), for a draft whose date is a `YYYY-MM-DD` date or is
not parsed at all (the empty string of an unset date input).  There
`validateBooking` also returns `true` exactly when no rule is violated. -/
theorem validateBooking_errors_east_of_utc (clock : Clock) (d : FormData)
    (hoffset : 0 ≤ clock.utcOffsetMinutes ∧ clock.utcOffsetMinutes < 1440)
    (hother : parseIsoDate d.bookingDate.data = none → clock.parseOther d.bookingDate = none) :
    validateBookingErrors clock d = violatedMessages clock d ∧
    (validateBooking clock d = true ↔ violatedMessages clock d = []) := by
  have key : validateBookingErrors clock d = violatedMessages clock d := by
    unfold validateBookingErrors violatedMessages bookingRules
    simp only [date_test_eq_isPastDate clock d.bookingDate hoffset hother, pushIf_eq,
      not_optTruthy, strTruthy_eq, bne, Bool.not_not, filter_map_cons,
      List.filter_nil, List.map_nil, List.nil_append, List.append_nil, List.append_assoc]
  refine ⟨key, ?_⟩
  unfold validateBooking
  rw [key]
  cases violatedMessages clock d <;> simp

/-- C2 (the code departs from the claim): the rule list has the nine messages
of the claim, in its order, and at noon local time of 2024-12-15, five hours
behind UTC, a draft for 2024-12-15 with every field well-formed violates none of
the rules (its date is the clock's local day, so not a past date).  Yet the
error list of `validateBooking` is not the empty list of violated rules: it
holds 'Please select a future date', and `validateBooking` returns `false`
although no rule is violated. -/
theorem validateBooking_reports_rule_not_violated :
    (bookingRules noonWestOfUtc).map (fun rule => rule.1) =
      ["Please select a service type", "Please select a date", "Please select a time slot",
       "Please enter your name", "Please enter your email", "Please enter your phone number",
       "Please enter your address", "Please enter a valid email address",
       "Please select a future date"] ∧
    parseIsoDate (formDataOf sameDaySubmission).bookingDate.data = some 20072 ∧
    localDay noonWestOfUtc = 20072 ∧
    isPastDate noonWestOfUtc (formDataOf sameDaySubmission).bookingDate = false ∧
    violatedMessages noonWestOfUtc (formDataOf sameDaySubmission) = [] ∧
    validateBookingErrors noonWestOfUtc (formDataOf sameDaySubmission)
      = ["Please select a future date"] ∧
    validateBookingErrors noonWestOfUtc (formDataOf sameDaySubmission)
      ≠ violatedMessages noonWestOfUtc (formDataOf sameDaySubmission) ∧
    validateBooking noonWestOfUtc (formDataOf sameDaySubmission) = false := by
  decide

/-- What the date rule of `validateBooking` does with a date-only string, for a
zone whose offset is less than a day: a day before the clock's local day is
rejected, and the clock's local day itself is rejected exactly when the zone is
west of UTC. -/
theorem date_rule_by_offset (clock : Clock) (s : String) (day : Int)
    (hparse : parseIsoDate s.data = some day)
    (hoffset : -1440 < clock.utcOffsetMinutes ∧ clock.utcOffsetMinutes < 1440) :
    (day < (clock.now + clock.utcOffsetMinutes * 60000) / msPerDay →
      dateLess (dateParse clock s) (setHoursZero clock clock.now) = true) ∧
    (day = (clock.now + clock.utcOffsetMinutes * 60000) / msPerDay →
      (dateLess (dateParse clock s) (setHoursZero clock clock.now) = true ↔
        clock.utcOffsetMinutes < 0)) := by
  obtain ⟨h1, h2⟩ := hoffset
  simp only [dateParse, hparse, dateLess, setHoursZero, msPerDay, decide_eq_true_eq]
  constructor
  · intro h
    omega
  · intro h
    omega

/-- C3 (the code departs from the claim): west of UTC a booking for the
reference date's own local calendar day is rejected.  At noon local time of
2024-12-15, five hours behind UTC, the form's date `2024-12-15` is the local day
of the clock, every other field is well-formed, and `validateBooking` answers
`false` with the one message 'Please select a future date': `new Date` reads
the date as midnight UTC, five hours before the local midnight it is compared
with. -/
theorem validateBooking_rejects_same_day_west_of_utc :
    (formDataOf sameDaySubmission).bookingDate = "2024-12-15" ∧
    parseIsoDate "2024-12-15".data = some 20072 ∧
    (noonWestOfUtc.now + noonWestOfUtc.utcOffsetMinutes * 60000) / msPerDay = 20072 ∧
    dateParse noonWestOfUtc "2024-12-15" = some 1734220800000 ∧
    setHoursZero noonWestOfUtc noonWestOfUtc.now = 1734238800000 ∧
    validateBookingErrors noonWestOfUtc (formDataOf sameDaySubmission)
      = ["Please select a future date"] ∧
    validateBooking noonWestOfUtc (formDataOf sameDaySubmission) = false := by
  decide

namespace Regex

theorem matchList_fail (cs : List Char) : matchList fail cs = false := by
  induction cs with
  | nil => rfl
  | cons c cs ih => simpa [matchList, deriv] using ih

theorem matchList_eps (cs : List Char) : matchList eps cs = cs.isEmpty := by
  cases cs with
  | nil => rfl
  | cons c cs => simp [matchList, deriv, matchList_fail]

theorem matchList_alt (r s : Regex) (cs : List Char) :
    matchList (alt r s) cs = (matchList r cs || matchList s cs) := by
  induction cs generalizing r s with
  | nil => rfl
  | cons c cs ih => simp [matchList, deriv, ih]

theorem matchList_seq_fail (s : Regex) (cs : List Char) : matchList (seq fail s) cs = false := by
  induction cs with
  | nil => rfl
  | cons c cs ih => simpa [matchList, deriv, nullable] using ih

theorem matchList_seq_eps (s : Regex) (cs : List Char) :
    matchList (seq eps s) cs = matchList s cs := by
  cases cs with
  | nil => simp [matchList, nullable]
  | cons c cs => simp [matchList, deriv, nullable, matchList_alt, matchList_seq_fail]

theorem matchList_seq_cls_nil (p : Char → Bool) (s : Regex) :
    matchList (seq (cls p) s) [] = false := by
  simp [matchList, nullable]

theorem matchList_seq_cls_cons (p : Char → Bool) (s : Regex) (c : Char) (cs : List Char) :
    matchList (seq (cls p) s) (c :: cs) = (p c && matchList s cs) := by
  cases h : p c <;> simp [matchList, deriv, nullable, h, matchList_seq_fail, matchList_seq_eps]

theorem matchList_seq_alt (a b s : Regex) (cs : List Char) :
    matchList (seq (alt a b) s) cs = (matchList (seq a s) cs || matchList (seq b s) cs) := by
  induction cs generalizing a b s with
  | nil =>
    simp only [matchList, nullable]
    cases nullable a <;> cases nullable b <;> cases nullable s <;> rfl
  | cons c cs ih =>
    generalize hx : matchList (seq (deriv a c) s) cs = x
    generalize hy : matchList (seq (deriv b c) s) cs = y
    generalize hz : matchList (deriv s c) cs = z
    cases ha : nullable a <;> cases hb : nullable b <;>
      simp only [matchList, deriv, nullable, ha, hb, ih, matchList_alt, hx, hy, hz,
        Bool.or_false, Bool.or_true, Bool.false_or, Bool.true_or, if_true, if_false,
        Bool.false_eq_true] <;>
      cases x <;> cases y <;> cases z <;> rfl

theorem matchList_seq_assoc (a b s : Regex) (cs : List Char) :
    matchList (seq (seq a b) s) cs = matchList (seq a (seq b s)) cs := by
  induction cs generalizing a b s with
  | nil =>
    simp only [matchList, nullable]
    cases nullable a <;> cases nullable b <;> cases nullable s <;> rfl
  | cons c cs ih =>
    generalize hx : matchList (seq (deriv a c) (seq b s)) cs = x
    generalize hy : matchList (seq (deriv b c) s) cs = y
    generalize hz : matchList (deriv s c) cs = z
    cases ha : nullable a <;> cases hb : nullable b <;>
      simp only [matchList, deriv, nullable, ha, hb, ih, matchList_alt, matchList_seq_alt,
        hx, hy, hz, Bool.or_false, Bool.or_true, Bool.false_or, Bool.true_or, if_true, if_false,
        Bool.false_eq_true, Bool.and_true, Bool.and_false, Bool.true_and, Bool.false_and]
    all_goals (cases x <;> cases y <;> cases z <;> rfl)

/-- A run of exactly `n` characters of a class. -/
theorem matchList_rep_cls (p : Char → Bool) (n : Nat) (cs : List Char) :
    matchList (rep n (cls p)) cs = (decide (cs.length = n) && cs.all p) := by
  induction n generalizing cs with
  | zero =>
    cases cs <;> simp [rep, matchList_eps]
  | succ n ih =>
    cases cs with
    | nil => simp [rep, matchList_seq_cls_nil]
    | cons c cs =>
      simp only [rep, matchList_seq_cls_cons, ih, List.length_cons, List.all_cons,
        Nat.add_right_cancel_iff]
      cases p c <;> simp

end Regex

theorem expiry_shape (a b c d e : Char) (rest : List Char) :
    Regex.matchList expiryRegex (a :: b :: c :: d :: e :: rest) =
      (((a == '0' && (('1').toNat ≤ b.toNat && b.toNat ≤ ('9').toNat)) ||
        (a == '1' && (('0').toNat ≤ b.toNat && b.toNat ≤ ('2').toNat))) &&
       (c == '/' && (isJsDigit d && (isJsDigit e && rest.isEmpty)))) := by
  simp only [expiryRegex, Regex.chr, Regex.range, Regex.digit, Regex.rep,
    Regex.matchList_seq_alt, Regex.matchList_seq_assoc, Regex.matchList_seq_cls_cons,
    Regex.matchList_eps]
  cases (c == '/' && (isJsDigit d && (isJsDigit e && rest.isEmpty))) <;> simp

theorem char_eq_iff_toNat (c d : Char) : c = d ↔ c.toNat = d.toNat := by
  constructor
  · intro h; rw [h]
  · intro h
    rw [← Char.ofNat_toNat c, ← Char.ofNat_toNat d, h]

theorem digits_test (n : Nat) (s : String) :
    Regex.test (Regex.rep n Regex.digit) s = true ↔ IsDigits n s.data := by
  simp [Regex.test, Regex.digit, Regex.matchList_rep_cls, IsDigits]

theorem expiry_test (s : String) : Regex.test expiryRegex s = true ↔ IsExpiry s.data := by
  unfold Regex.test
  generalize s.data = cs
  have short : ∀ l : List Char, l.length < 5 → Regex.matchList expiryRegex l = false := by
    intro l hl
    rcases l with _ | ⟨a, _ | ⟨b, _ | ⟨c, _ | ⟨d, _ | ⟨e, l⟩⟩⟩⟩⟩ <;>
      first
        | (simp at hl; omega)
        | simp [expiryRegex, Regex.chr, Regex.range, Regex.digit, Regex.rep,
            Regex.matchList_seq_alt, Regex.matchList_seq_assoc, Regex.matchList_seq_cls_cons,
            Regex.matchList_seq_cls_nil, Regex.matchList_eps]
  by_cases hlen : cs.length < 5
  · rw [short cs hlen]
    constructor
    · intro h; cases h
    · rintro ⟨m1, m2, y1, y2, rfl, _⟩
      simp at hlen
  · rcases cs with _ | ⟨a, _ | ⟨b, _ | ⟨c, _ | ⟨d, _ | ⟨e, rest⟩⟩⟩⟩⟩ <;>
      try (exfalso; apply hlen; simp; done)
    rw [expiry_shape]
    have h0 : (('0').toNat) = 48 := rfl
    have h1 : (('1').toNat) = 49 := rfl
    have h2 : (('2').toNat) = 50 := rfl
    have h9 : (('9').toNat) = 57 := rfl
    simp only [IsExpiry, isJsDigit, digitValue, Bool.and_eq_true, Bool.or_eq_true, beq_iff_eq,
      decide_eq_true_eq, List.isEmpty_iff, char_eq_iff_toNat a, h0, h1, h2, h9]
    constructor
    · rintro ⟨hm, hc, hd, he, rfl⟩
      have hc' : c = '/' := hc
      subst hc'
      refine ⟨a, b, d, e, rfl, ?_, ?_, ?_, ?_, hd, he⟩ <;> omega
    · rintro ⟨m1, m2, y1, y2, heq, hm1, hm2, hlo, hhi, hy1, hy2⟩
      simp only [List.cons.injEq, and_true] at heq
      obtain ⟨rfl, rfl, rfl, rfl, rfl, rfl⟩ := heq
      refine ⟨?_, rfl, hy1, hy2, rfl⟩
      omega

theorem validatePayment_eq_true (pd : PaymentData) :
    validatePayment pd = true ↔
      cardNumberRegex.test (removeWhiteSpace pd.cardNumber) = true ∧
      expiryRegex.test pd.expiryDate = true ∧ cvvRegex.test pd.cvv = true ∧
      3 ≤ jsLength pd.cardName := by
  unfold validatePayment validatePaymentErrors
  simp only [pushIf_eq]
  cases cardNumberRegex.test (removeWhiteSpace pd.cardNumber) <;>
    cases expiryRegex.test pd.expiryDate <;> cases cvvRegex.test pd.cvv <;>
    by_cases h : jsLength pd.cardName < 3 <;> simp [h]
  all_goals omega

/-- C4: `validatePayment` returns `true` exactly when the card number without
its whitespace is 16 ASCII digits, the expiry date is two digits forming a month
01 to 12, a slash and two digits, the CVV is 3 ASCII digits and the card name
has length at least 3; it rejects the expiry dates `13/25` and `1/25` and
accepts the well-formed example. -/
theorem validatePayment_iff_well_formed :
    (∀ pd : PaymentData, validatePayment pd = true ↔
      IsDigits 16 (pd.cardNumber.data.filter (fun c => !isJsWhiteSpace c)) ∧
      IsExpiry pd.expiryDate.data ∧ IsDigits 3 pd.cvv.data ∧ 3 ≤ jsLength pd.cardName) ∧
    (∀ cardNumber cvv cardName : String,
      validatePayment { cardNumber := cardNumber, expiryDate := "13/25", cvv := cvv,
                        cardName := cardName } = false) ∧
    (∀ cardNumber cvv cardName : String,
      validatePayment { cardNumber := cardNumber, expiryDate := "1/25", cvv := cvv,
                        cardName := cardName } = false) ∧
    validatePayment { cardNumber := "4111111111111111", expiryDate := "12/26", cvv := "123",
                      cardName := "Jane Doe" } = true := by
  have main : ∀ pd : PaymentData, validatePayment pd = true ↔
      IsDigits 16 (pd.cardNumber.data.filter (fun c => !isJsWhiteSpace c)) ∧
      IsExpiry pd.expiryDate.data ∧ IsDigits 3 pd.cvv.data ∧ 3 ≤ jsLength pd.cardName := by
    intro pd
    rw [validatePayment_eq_true, cardNumberRegex, cvvRegex, digits_test, digits_test,
      expiry_test]
    rfl
  have reject : ∀ (expiry : String), expiryRegex.test expiry = false →
      ∀ cardNumber cvv cardName : String,
      validatePayment { cardNumber := cardNumber, expiryDate := expiry, cvv := cvv,
                        cardName := cardName } = false := by
    intro expiry h cardNumber cvv cardName
    rw [← Bool.not_eq_true, validatePayment_eq_true]
    simp [h]
  exact ⟨main, reject "13/25" (by decide), reject "1/25" (by decide), by decide⟩

/-- C5 (the claim as stated fails): when the store already holds a booking with
the id of the promoted one (two submissions for which `Date.now()` returned
the same millisecond), the lookup of `viewBooking` after the append returns
the older booking, not the one just appended. -/
theorem viewBooking_returns_older_booking_with_same_id :
    (worldBeforeSecondPayment.map fun w => (handlePaymentSubmit goodPayment w).appState.bookings)
      = some (sampleBookings ++ [firstBooking] ++ [secondBooking]) ∧
    (worldBeforeSecondPayment.map fun w =>
        viewBooking (handlePaymentSubmit goodPayment w).appState secondBooking.id)
      = some (some firstBooking) ∧
    firstBooking ≠ secondBooking := by
  decide

/-- C5 (amended): when no stored booking has the id of the current draft, a
payment submission that passes `validatePayment` appends the promoted draft and
persists the store; afterwards the lookup by its id returns it, the number of
bookings has grown by exactly 1, and the bookings stored before are a prefix of
the store, unchanged and in the same order. -/
theorem append_then_find (e : PaymentSubmission) (w : World) (b : Booking)
    (hdraft : w.appState.currentBooking = some b)
    (hvalid : validatePayment (paymentDataOf e) = true)
    (hfresh : ∀ x ∈ w.appState.bookings, x.id ≠ b.id) :
    (handlePaymentSubmit e w).appState.bookings
      = w.appState.bookings ++ [{ b with paymentStatus := "paid", status := "confirmed" }] ∧
    (handlePaymentSubmit e w).localStorage
      = some (stringifyBookings (handlePaymentSubmit e w).appState.bookings) ∧
    viewBooking (handlePaymentSubmit e w).appState b.id
      = some { b with paymentStatus := "paid", status := "confirmed" } ∧
    (updateDashboardStats (handlePaymentSubmit e w).appState).totalBookings
      = (updateDashboardStats w.appState).totalBookings + 1 := by
  have hw : handlePaymentSubmit e w =
      { appState := { w.appState with
          currentBooking := some { b with paymentStatus := "paid", status := "confirmed" },
          bookings := w.appState.bookings ++
            [{ b with paymentStatus := "paid", status := "confirmed" }],
          isXeroSynced := true },
        localStorage := some (stringifyBookings (w.appState.bookings ++
            [{ b with paymentStatus := "paid", status := "confirmed" }])) } := by
    simp [handlePaymentSubmit, hvalid, hdraft, processPaymentSimulation, JsValue.truthy,
      sendInvoiceToXero]
  rw [hw]
  refine ⟨rfl, rfl, ?_, ?_⟩
  · simp only [viewBooking]
    rw [List.find?_append]
    have hnone : List.find? (fun x => x.id == b.id) w.appState.bookings = none := by
      rw [List.find?_eq_none]
      intro x hx
      simpa using hfresh x hx
    rw [hnone]
    simp
  · simp [updateDashboardStats]

/-- The amended C5 at the seeded store holding `sampleDraft` as current draft. -/
theorem append_then_find_witness :
    (handlePaymentSubmit goodPayment worldWithDraft).appState.bookings
      = worldWithDraft.appState.bookings ++
          [{ sampleDraft with paymentStatus := "paid", status := "confirmed" }] ∧
    (handlePaymentSubmit goodPayment worldWithDraft).localStorage
      = some (stringifyBookings (handlePaymentSubmit goodPayment worldWithDraft).appState.bookings) ∧
    viewBooking (handlePaymentSubmit goodPayment worldWithDraft).appState sampleDraft.id
      = some { sampleDraft with paymentStatus := "paid", status := "confirmed" } ∧
    (updateDashboardStats (handlePaymentSubmit goodPayment worldWithDraft).appState).totalBookings
      = (updateDashboardStats worldWithDraft.appState).totalBookings + 1 :=
  append_then_find goodPayment worldWithDraft sampleDraft rfl (by decide) (by decide)

theorem foldl_price_eq (l : List Booking) (acc : Int) :
    l.foldl (fun sum booking => sum + booking.price) acc = acc + (l.map (fun b => b.price)).sum := by
  induction l generalizing acc with
  | nil => simp
  | cons b l ih => simp [ih, add_assoc]

theorem paid_sum_eq (l : List Booking) :
    ((l.filter (fun b => b.paymentStatus == "paid")).map (fun b => b.price)).sum
      = (l.map (fun b => if b.paymentStatus = "paid" then b.price else 0)).sum := by
  induction l with
  | nil => rfl
  | cons b l ih =>
    by_cases h : b.paymentStatus = "paid" <;> simp [List.filter_cons, h, ih]

/-- C6: the statistics of `updateDashboardStats` are the number of bookings, the
number of bookings with payment status 'pending' and the sum of the prices of
the bookings with payment status 'paid'; they are (0, 0, 0) on the empty store
and (3, 1, 288) on the seed set that `loadSampleBookings` installs. -/
theorem updateDashboardStats_eq_statsOf :
    (∀ appState : AppState, updateDashboardStats appState = statsOf appState.bookings) ∧
    (∀ (page : String) (draft : Option Booking) (synced : Bool),
      updateDashboardStats { currentPage := page, bookings := [], currentBooking := draft,
                             isXeroSynced := synced }
        = { totalBookings := 0, pendingPayments := 0, totalRevenue := 0 }) ∧
    (∀ w : World, w.appState.bookings = [] →
      updateDashboardStats (loadSampleBookings w).appState
        = { totalBookings := 3, pendingPayments := 1, totalRevenue := 288 }) := by
  refine ⟨?_, ?_, ?_⟩
  · intro appState
    simp only [updateDashboardStats, statsOf, foldl_price_eq, paid_sum_eq, zero_add]
    congr 2
    rw [List.countP_eq_length_filter]
    congr 2
  · intro page draft synced
    rfl
  · intro w hw
    have h : (loadSampleBookings w).appState.bookings = sampleBookings := by
      simp [loadSampleBookings, hw]
    simp only [updateDashboardStats, h]
    decide

/-- C6 at a fresh start with empty storage. -/
theorem updateDashboardStats_seed_witness :
    (startup none).map (fun w => updateDashboardStats w.appState)
      = some { totalBookings := 3, pendingPayments := 1, totalRevenue := 288 } := by
  have h := updateDashboardStats_eq_statsOf.2.2
    { appState := { currentPage := "home", bookings := [], currentBooking := none,
                    isXeroSynced := false }, localStorage := none } rfl
  simpa [startup, initialAppState, parseStoredBookings] using h

/-- C7 (the claim as stated fails): after a fresh start, one booking submission
and two submissions of the payment form, the same booking stands twice in the
store and the stored ids are not pairwise distinct. -/
theorem paying_twice_appends_twice :
    handleBookingSubmit firstSubmission seededWorld = some worldAfterFirstSubmission ∧
    (handlePaymentSubmit goodPayment
        (handlePaymentSubmit goodPayment worldAfterFirstSubmission)).appState.bookings
      = sampleBookings ++ [firstBooking, firstBooking] ∧
    ¬ ((handlePaymentSubmit goodPayment
        (handlePaymentSubmit goodPayment worldAfterFirstSubmission)).appState.bookings.map
          (fun b => b.id)).Nodup := by
  decide

theorem handleBookingSubmit_cases (e : BookingSubmission) (w w' : World)
    (h : handleBookingSubmit e w = some w') :
    (validateBooking e.clock (formDataOf e) = false ∧ w' = w) ∨
    (validateBooking e.clock (formDataOf e) = true ∧
      ∃ price : Int, w' = { w with appState := { w.appState with
        currentBooking := some { toFormData := formDataOf e, price := price } } }) := by
  unfold handleBookingSubmit at h
  cases hv : validateBooking e.clock (formDataOf e) with
  | false =>
    left
    simp [hv] at h
    exact ⟨rfl, h.symm⟩
  | true =>
    right
    refine ⟨rfl, ?_⟩
    simp only [hv, Bool.not_true, Bool.false_eq_true, if_false] at h
    cases hp : getServicePrice (formDataOf e).serviceType with
    | own price =>
      rw [hp] at h
      exact ⟨price, (Option.some.inj h).symm⟩
    | inherited k => rw [hp] at h; cases h
    | undefined => rw [hp] at h; cases h

theorem handlePaymentSubmit_cases (e : PaymentSubmission) (w : World) :
    ((validatePayment (paymentDataOf e) = false ∨ w.appState.currentBooking = none) ∧
      handlePaymentSubmit e w = w) ∨
    (validatePayment (paymentDataOf e) = true ∧ ∃ b : Booking,
      w.appState.currentBooking = some b ∧
      handlePaymentSubmit e w =
        { appState := { w.appState with
            currentBooking := some { b with paymentStatus := "paid", status := "confirmed" },
            bookings := w.appState.bookings ++
              [{ b with paymentStatus := "paid", status := "confirmed" }],
            isXeroSynced := true },
          localStorage := some (stringifyBookings (w.appState.bookings ++
              [{ b with paymentStatus := "paid", status := "confirmed" }])) }) := by
  cases hv : validatePayment (paymentDataOf e) with
  | false =>
    left
    exact ⟨Or.inl rfl, by simp [handlePaymentSubmit, hv]⟩
  | true =>
    cases hd : w.appState.currentBooking with
    | none =>
      left
      exact ⟨Or.inr rfl, by
        simp [handlePaymentSubmit, hv, hd, processPaymentSimulation, JsValue.truthy]⟩
    | some b =>
      right
      exact ⟨rfl, b, rfl, by
        simp [handlePaymentSubmit, hv, hd, processPaymentSimulation, JsValue.truthy,
          sendInvoiceToXero]⟩

theorem reachable_clockInvariant (t : Int) (paid : Bool) (w : World)
    (h : Reachable t paid w) : ClockInvariant t paid w := by
  induction h with
  | start w h =>
    have hw : w = seededWorld := by
      have h' : startup none = some seededWorld := by decide
      rw [h'] at h
      exact (Option.some.inj h).symm
    subst hw
    refine ⟨by decide, by decide, ?_⟩
    intro c hc
    cases hc
  | booking t paid w w' e hw hclock hstep ih =>
    obtain ⟨hnodup, hle, hcur⟩ := ih
    rcases handleBookingSubmit_cases e w w' hstep with ⟨hv, rfl⟩ | ⟨hv, price, rfl⟩
    · refine ⟨hnodup, fun b hb => le_of_lt (lt_of_le_of_lt (hle b hb) hclock), ?_⟩
      intro c hc
      obtain ⟨h1, h2⟩ := hcur c hc
      refine ⟨le_of_lt (lt_of_le_of_lt h1 hclock), ?_⟩
      simpa [hv] using h2
    · refine ⟨hnodup, fun b hb => le_of_lt (lt_of_le_of_lt (hle b hb) hclock), ?_⟩
      intro c hc
      simp only [Option.some.injEq] at hc
      subst hc
      refine ⟨le_refl _, ?_⟩
      intro _ b hb
      have h1 : b.id ≤ t := hle b hb
      have h2 : (formDataOf e).id = e.dateNow := rfl
      show b.id ≠ (formDataOf e).id
      rw [h2]
      omega
  | payment t paid w e hw honce ih =>
    obtain ⟨hnodup, hle, hcur⟩ := ih
    rcases handlePaymentSubmit_cases e w with ⟨hno, heq⟩ | ⟨hv, b, hb, heq⟩
    · rw [heq]
      have hp : (paid || (validatePayment (paymentDataOf e) &&
          w.appState.currentBooking.isSome)) = paid := by
        rcases hno with hno | hno <;> simp [hno]
      rw [hp]
      exact ⟨hnodup, hle, hcur⟩
    · rw [heq]
      have hpaid : paid = false := by
        rcases honce with h | h
        · exact h
        · rw [hv] at h; cases h
      obtain ⟨h1, h2⟩ := hcur b hb
      have hfresh := h2 hpaid
      refine ⟨?_, ?_, ?_⟩
      · simp only [List.map_append, List.map_cons, List.map_nil]
        rw [List.nodup_append]
        refine ⟨hnodup, List.nodup_singleton _, ?_⟩
        intro a ha ha'
        simp only [List.mem_singleton] at ha'
        obtain ⟨x, hx, rfl⟩ := List.mem_map.mp ha
        exact hfresh x hx ha'
      · intro x hx
        simp only [List.mem_append, List.mem_singleton] at hx
        rcases hx with hx | rfl
        · exact hle x hx
        · exact h1
      · intro c hc
        simp only [Option.some.injEq] at hc
        subst hc
        refine ⟨h1, ?_⟩
        intro hfalse
        simp [hv, hb] at hfalse

/-- C7 (amended): in every state reached from the seeded store by booking
submissions for which `Date.now()` returns more than the seed ids and more than
it returned before, and payment submissions of which at most one per draft
passes `validatePayment`, each booking stands once in the store and the stored
ids are pairwise distinct. -/
theorem reachable_ids_distinct (t : Int) (paid : Bool) (w : World)
    (h : Reachable t paid w) :
    (w.appState.bookings.map (fun b => b.id)).Nodup ∧ w.appState.bookings.Nodup := by
  have hinv := (reachable_clockInvariant t paid w h).1
  exact ⟨hinv, List.Nodup.of_map _ hinv⟩

/-- The amended C7 along the history: fresh start, `firstSubmission`, one payment. -/
theorem reachable_ids_distinct_witness :
    ((handlePaymentSubmit goodPayment worldAfterFirstSubmission).appState.bookings.map
        (fun b => b.id)).Nodup ∧
    (handlePaymentSubmit goodPayment worldAfterFirstSubmission).appState.bookings.Nodup :=
  reachable_ids_distinct _ _ _
    (Reachable.payment _ _ _ goodPayment
      (Reachable.booking 3 false seededWorld worldAfterFirstSubmission firstSubmission
        (Reachable.start seededWorld (by decide)) (by decide) (by decide))
      (Or.inl (by decide)))

theorem sampleBookings_consistent : ∀ b ∈ sampleBookings, StatusConsistent b := by
  unfold StatusConsistent
  decide

/-- C8: the predicate 'status is confirmed exactly when paymentStatus is paid'
holds for every booking of the seed set and, in the state after a fresh start,
for the store and the (absent) draft; every operation that changes the store
or a booking (`handleBookingSubmit`, `handlePaymentSubmit`,
`loadSampleBookings`, the timer of `syncWithXero`, `sendInvoiceToXero`) takes a
state in which it holds for all stored bookings and the current draft to such
a state.  States are taken between the runs of the handlers. -/
theorem status_invariant_preserved :
    (∀ b ∈ sampleBookings, StatusConsistent b) ∧
    WorldConsistent seededWorld ∧
    (∀ w w' : World, WorldConsistent w → Operation w w' → WorldConsistent w') := by
  refine ⟨sampleBookings_consistent, ⟨sampleBookings_consistent, ?_⟩, ?_⟩
  · intro b hb
    cases hb
  · intro w w' hw hop
    obtain ⟨hstore, hdraft⟩ := hw
    cases hop with
    | booking e _ _ h =>
      rcases handleBookingSubmit_cases e w w' h with ⟨_, rfl⟩ | ⟨_, price, rfl⟩
      · exact ⟨hstore, hdraft⟩
      · refine ⟨hstore, ?_⟩
        intro b hb
        simp only [Option.some.injEq] at hb
        subst hb
        simp [StatusConsistent, formDataOf]
    | payment e =>
      rcases handlePaymentSubmit_cases e w with ⟨_, heq⟩ | ⟨_, b, _, heq⟩
      · rw [heq]
        exact ⟨hstore, hdraft⟩
      · rw [heq]
        refine ⟨?_, ?_⟩
        · intro x hx
          simp only [List.mem_append, List.mem_singleton] at hx
          rcases hx with hx | rfl
          · exact hstore x hx
          · simp [StatusConsistent]
        · intro x hx
          simp only [Option.some.injEq] at hx
          subst hx
          simp [StatusConsistent]
    | seed =>
      unfold loadSampleBookings
      split
      · exact ⟨hstore, hdraft⟩
      · exact ⟨sampleBookings_consistent, hdraft⟩
    | syncTimer l => exact ⟨hstore, hdraft⟩
    | invoice b n d => exact ⟨hstore, hdraft⟩

/-- C8 at the seeded store with a pending draft and one payment submission. -/
theorem status_invariant_preserved_witness :
    WorldConsistent worldWithDraft ∧
    WorldConsistent (handlePaymentSubmit goodPayment worldWithDraft) := by
  have h : WorldConsistent worldWithDraft := by
    refine ⟨sampleBookings_consistent, ?_⟩
    intro b hb
    have hb' : b = sampleDraft := (Option.some.inj hb).symm
    subst hb'
    unfold StatusConsistent
    decide
  exact ⟨h, status_invariant_preserved.2.2 _ _ h (Operation.payment goodPayment worldWithDraft)⟩

/-- C9: `loadSampleBookings` leaves the bookings in memory and the persisted copy
as they are (indeed the whole state) when the loaded store is not empty; when it
is empty, the store becomes the three seed bookings, with service types home,
office, deep and payment statuses paid, pending, paid, and exactly that sequence
is persisted. -/
theorem loadSampleBookings_seeds_only_when_empty (w : World) :
    (w.appState.bookings.length > 0 → loadSampleBookings w = w) ∧
    (w.appState.bookings = [] →
      (loadSampleBookings w).appState.bookings = sampleBookings ∧
      (loadSampleBookings w).localStorage = some (stringifyBookings sampleBookings)) ∧
    sampleBookings.length = 3 ∧
    sampleBookings.map (fun b => b.serviceType) = ["home", "office", "deep"] ∧
    sampleBookings.map (fun b => b.paymentStatus) = ["paid", "pending", "paid"] := by
  refine ⟨?_, ?_, rfl, rfl, rfl⟩
  · intro h
    simp [loadSampleBookings, h]
  · intro h
    simp [loadSampleBookings, h]

/-- C9 at a store holding one booking, and at the empty store with no item. -/
theorem loadSampleBookings_seeds_only_when_empty_witness :
    loadSampleBookings worldWithDraft = worldWithDraft ∧
    (loadSampleBookings
        { appState := { currentPage := "home", bookings := [], currentBooking := none,
                        isXeroSynced := false },
          localStorage := none }).appState.bookings = sampleBookings :=
  ⟨(loadSampleBookings_seeds_only_when_empty worldWithDraft).1 (by decide),
   ((loadSampleBookings_seeds_only_when_empty _).2.1 rfl).1⟩

theorem ofJson_toJson (b : Booking) : Booking.ofJson (Booking.toJson b) = some b := by
  rcases b with ⟨⟨serviceType, bookingDate, timeSlot, customerName, customerEmail, customerPhone,
    address, instructions, status, paymentStatus, id, createdAt⟩, price⟩
  cases timeSlot <;> cases instructions <;> rfl

theorem parse_stringify (l : List Booking) :
    parseBookingArray (stringifyBookings l) = some l := by
  induction l with
  | nil => rfl
  | cons b l ih =>
    have ih' : parseBookingArray (List.map Booking.toJson l) = some l := ih
    simp [stringifyBookings, parseBookingArray, ofJson_toJson, ih']

/-- C10 (the claim as stated fails): the empty store, persisted and loaded by
the startup path, does not come back: the stored array is empty, so
`loadSampleBookings` takes its seeding branch and the store is the seed set. -/
theorem empty_store_reloads_as_seed :
    stringifyBookings [] = [] ∧
    parseStoredBookings (some (stringifyBookings [])) = some [] ∧
    startup (some (stringifyBookings [])) = some seededWorld ∧
    seededWorld.appState.bookings = sampleBookings ∧
    sampleBookings ≠ [] := by
  decide

/-- C10 (amended): for every store that is not empty, persisting it and running
the startup path yields the same sequence of bookings, field for field, and
`loadSampleBookings` does not seed: it leaves the state and the stored item as
they are. -/
theorem startup_after_persist (l : List Booking) (hl : l ≠ []) :
    parseStoredBookings (some (stringifyBookings l)) = some l ∧
    startup (some (stringifyBookings l))
      = some { appState := { currentPage := "home", bookings := l, currentBooking := none,
                             isXeroSynced := false },
               localStorage := some (stringifyBookings l) } ∧
    loadSampleBookings
        { appState := { currentPage := "home", bookings := l, currentBooking := none,
                        isXeroSynced := false },
          localStorage := some (stringifyBookings l) }
      = { appState := { currentPage := "home", bookings := l, currentBooking := none,
                        isXeroSynced := false },
          localStorage := some (stringifyBookings l) } := by
  have hlen : l.length > 0 := List.length_pos.mpr hl
  have hload : loadSampleBookings
        { appState := { currentPage := "home", bookings := l, currentBooking := none,
                        isXeroSynced := false },
          localStorage := some (stringifyBookings l) }
      = { appState := { currentPage := "home", bookings := l, currentBooking := none,
                        isXeroSynced := false },
          localStorage := some (stringifyBookings l) } := by
    simp [loadSampleBookings, hlen]
  refine ⟨parse_stringify l, ?_, hload⟩
  simp only [startup, initialAppState, parseStoredBookings, parse_stringify, Option.map_some']
  rw [hload]

/-- The amended C10 at the store a first promoted booking leaves. -/
theorem startup_after_persist_witness :
    parseStoredBookings (some (stringifyBookings (sampleBookings ++ [firstBooking])))
      = some (sampleBookings ++ [firstBooking]) ∧
    startup (some (stringifyBookings (sampleBookings ++ [firstBooking])))
      = some { appState := { currentPage := "home", bookings := sampleBookings ++ [firstBooking],
                             currentBooking := none, isXeroSynced := false },
               localStorage := some (stringifyBookings (sampleBookings ++ [firstBooking])) } :=
  ⟨(startup_after_persist (sampleBookings ++ [firstBooking]) (by decide)).1,
   (startup_after_persist (sampleBookings ++ [firstBooking]) (by decide)).2.1⟩

theorem filter_paid_eq (l : List Booking) :
    l.filter (fun b => b.paymentStatus == "paid")
      = l.filter (fun b => decide (b.paymentStatus = "paid")) := by
  congr 1

/-- C11: `syncWithXero` selects exactly the bookings whose payment status is
'paid'.  When there are none it ends with the informational notification and
`appState` is as before; when there are `N > 0` the timer callback reports `N`
and sets `isXeroSynced`, in whatever state it fires.  Neither changes the
bookings (nor the page or the draft), so a second call selects the same
bookings again. -/
theorem syncWithXero_selects_paid (appState later : AppState) :
    (appState.bookings.filter (fun b => decide (b.paymentStatus = "paid")) = [] →
      syncWithXero appState = SyncResult.info "No new invoices to sync with Xero" ∧
      syncWithXeroAndTimer appState = (none, appState)) ∧
    (appState.bookings.filter (fun b => decide (b.paymentStatus = "paid")) ≠ [] →
      syncWithXero appState
        = SyncResult.timer (appState.bookings.filter (fun b => decide (b.paymentStatus = "paid"))) ∧
      syncWithXeroTimeout
          (appState.bookings.filter (fun b => decide (b.paymentStatus = "paid"))) later
        = ((appState.bookings.filter (fun b => decide (b.paymentStatus = "paid"))).length,
           { later with isXeroSynced := true }) ∧
      syncWithXeroAndTimer appState
        = (some (appState.bookings.filter (fun b => decide (b.paymentStatus = "paid"))).length,
           { appState with isXeroSynced := true })) ∧
    (syncWithXeroAndTimer appState).2.bookings = appState.bookings ∧
    syncWithXero (syncWithXeroAndTimer appState).2 = syncWithXero appState := by
  have hsel := filter_paid_eq appState.bookings
  have hkeep : (syncWithXeroAndTimer appState).2.bookings = appState.bookings := by
    unfold syncWithXeroAndTimer
    cases syncWithXero appState <;> rfl
  refine ⟨?_, ?_, ?_, ?_⟩
  · intro h
    have h1 : syncWithXero appState = SyncResult.info "No new invoices to sync with Xero" := by
      simp [syncWithXero, hsel, h]
    exact ⟨h1, by simp [syncWithXeroAndTimer, h1]⟩
  · intro h
    have hlen : (appState.bookings.filter
        (fun b => decide (b.paymentStatus = "paid"))).length ≠ 0 := by
      intro h0
      exact h (List.length_eq_zero.mp h0)
    have h1 : syncWithXero appState = SyncResult.timer
        (appState.bookings.filter (fun b => decide (b.paymentStatus = "paid"))) := by
      simp [syncWithXero, hsel, hlen]
    exact ⟨h1, rfl, by simp [syncWithXeroAndTimer, h1, syncWithXeroTimeout]⟩
  · exact hkeep
  · unfold syncWithXero
    rw [hkeep]

/-- C11 at the seed set (two paid bookings) and at a store with no paid booking. -/
theorem syncWithXero_selects_paid_witness :
    syncWithXeroAndTimer seededWorld.appState
      = (some 2, { seededWorld.appState with isXeroSynced := true }) ∧
    syncWithXeroAndTimer { seededWorld.appState with bookings := [] }
      = (none, { seededWorld.appState with bookings := [] }) :=
  ⟨by
    have h := ((syncWithXero_selects_paid seededWorld.appState seededWorld.appState).2.1
      (by decide)).2.2
    simpa using h,
   ((syncWithXero_selects_paid { seededWorld.appState with bookings := [] }
      seededWorld.appState).1 (by decide)).2⟩

namespace Regex

theorem matchList_seq_iff (r s : Regex) (cs : List Char) :
    matchList (seq r s) cs = true ↔
      ∃ t u : List Char, cs = t ++ u ∧ matchList r t = true ∧ matchList s u = true := by
  induction cs generalizing r with
  | nil =>
    simp only [matchList, nullable, Bool.and_eq_true]
    constructor
    · rintro ⟨h1, h2⟩
      exact ⟨[], [], rfl, h1, h2⟩
    · rintro ⟨t, u, h, h1, h2⟩
      have ht : t = [] := (List.append_eq_nil.mp h.symm).1
      have hu : u = [] := (List.append_eq_nil.mp h.symm).2
      subst ht
      subst hu
      exact ⟨h1, h2⟩
  | cons c cs ih =>
    have hstep : matchList (seq r s) (c :: cs) =
        ((matchList (seq (deriv r c) s) cs) || (nullable r && matchList (deriv s c) cs)) := by
      cases hn : nullable r <;> simp [matchList, deriv, hn, matchList_alt]
    rw [hstep, Bool.or_eq_true, Bool.and_eq_true, ih]
    constructor
    · rintro (⟨t, u, h, h1, h2⟩ | ⟨h1, h2⟩)
      · exact ⟨c :: t, u, by rw [h]; rfl, h1, h2⟩
      · exact ⟨[], c :: cs, rfl, h1, h2⟩
    · rintro ⟨t, u, h, h1, h2⟩
      cases t with
      | nil =>
        right
        simp only [List.nil_append] at h
        subst h
        exact ⟨h1, h2⟩
      | cons d t =>
        left
        simp only [List.cons_append, List.cons.injEq] at h
        obtain ⟨rfl, rfl⟩ := h
        exact ⟨t, u, rfl, h1, h2⟩

theorem matchList_star_cls (p : Char → Bool) (cs : List Char) :
    matchList (star (cls p)) cs = cs.all p := by
  induction cs with
  | nil => rfl
  | cons c cs ih =>
    cases h : p c <;>
      simp [matchList, deriv, h, matchList_seq_fail, matchList_seq_eps]
    exact ih

theorem matchList_plus_cls (p : Char → Bool) (cs : List Char) :
    matchList (plus (cls p)) cs = true ↔ cs ≠ [] ∧ ∀ c ∈ cs, p c = true := by
  cases cs with
  | nil => simp [plus, matchList_seq_cls_nil]
  | cons c cs => simp [plus, matchList_seq_cls_cons, matchList_star_cls]

theorem matchList_seq_chr (a : Char) (s : Regex) (cs : List Char) :
    matchList (seq (chr a) s) cs = true ↔ ∃ u : List Char, cs = a :: u ∧ matchList s u = true := by
  cases cs with
  | nil => simp [chr, matchList_seq_cls_nil]
  | cons c cs =>
    simp only [chr, matchList_seq_cls_cons, Bool.and_eq_true, beq_iff_eq, List.cons.injEq]
    constructor
    · rintro ⟨rfl, h⟩
      exact ⟨cs, ⟨rfl, rfl⟩, h⟩
    · rintro ⟨u, ⟨rfl, rfl⟩, h⟩
      exact ⟨rfl, h⟩

end Regex

theorem plain_class_iff (l : List Char) :
    (l ≠ [] ∧ ∀ c ∈ l, (!(isJsWhiteSpace c || c == '@')) = true) ↔ IsPlainRun l := by
  unfold IsPlainRun
  simp

theorem emailRegex_test (s : String) : emailRegex.test s = true ↔ IsEmailForm s.data := by
  unfold Regex.test emailRegex IsEmailForm
  generalize s.data = cs
  simp only [Regex.matchList_seq_iff (Regex.plus _), Regex.matchList_seq_chr,
    Regex.matchList_plus_cls, plain_class_iff]
  constructor
  · rintro ⟨L, u, rfl, hL, v, rfl, D, w, rfl, hD, T, rfl, hT⟩
    exact ⟨L, D, T, rfl, hL, hD, hT⟩
  · rintro ⟨L, D, T, rfl, hL, hD, hT⟩
    exact ⟨L, _, rfl, hL, _, rfl, D, _, rfl, hD, T, rfl, hT⟩

theorem getElem?_at_split (l r : List Char) (a : Char) :
    (l ++ a :: r)[l.length]? = some a := by
  induction l with
  | nil => simp
  | cons x l ih => simpa using ih

theorem split_at_index (cs : List Char) (i : Nat) (a : Char) (h : cs[i]? = some a) :
    ∃ l r : List Char, cs = l ++ a :: r ∧ l.length = i := by
  induction cs generalizing i with
  | nil => simp at h
  | cons x cs ih =>
    cases i with
    | zero =>
      simp only [List.getElem?_cons_zero, Option.some.injEq] at h
      subst h
      exact ⟨[], cs, rfl, rfl⟩
    | succ i =>
      simp only [List.getElem?_cons_succ] at h
      obtain ⟨l, r, rfl, hl⟩ := ih i h
      exact ⟨x :: l, r, rfl, by simp [hl]⟩

theorem emailForm_iff_shape (cs : List Char) : IsEmailForm cs ↔ IsEmailShape cs := by
  constructor
  · rintro ⟨L, D, T, rfl, ⟨hL, hLc⟩, ⟨hD, hDc⟩, ⟨hT, hTc⟩⟩
    have hLat : ('@' : Char) ∉ L := fun h => (hLc _ h).2 rfl
    have hDat : ('@' : Char) ∉ D := fun h => (hDc _ h).2 rfl
    have hTat : ('@' : Char) ∉ T := fun h => (hTc _ h).2 rfl
    refine ⟨?_, ?_, ?_, L.length, L.length + 1 + D.length, ?_, ?_, ?_, ?_⟩
    · intro c hc
      simp only [List.mem_append, List.mem_cons] at hc
      rcases hc with h | rfl | h | rfl | h
      · exact (hLc c h).1
      · decide
      · exact (hDc c h).1
      · decide
      · exact (hTc c h).1
    · have h1 := List.count_eq_zero.mpr hLat
      have h2 := List.count_eq_zero.mpr hDat
      have h3 := List.count_eq_zero.mpr hTat
      have hne : (('.' : Char) == '@') = false := by decide
      simp [List.count_append, List.count_cons, h1, h2, h3, hne]
    · cases L with
      | nil => exact absurd rfl hL
      | cons x L =>
        simp only [List.cons_append, List.head?_cons, ne_eq, Option.some.injEq]
        exact (hLc x (List.mem_cons_self x L)).2
    · exact getElem?_at_split L _ '@'
    · have heq : L ++ '@' :: (D ++ '.' :: T) = (L ++ '@' :: D) ++ '.' :: T := by simp
      have hlen : L.length + 1 + D.length = (L ++ '@' :: D).length := by
        simp only [List.length_append, List.length_cons]
        omega
      rw [heq, hlen]
      exact getElem?_at_split (L ++ '@' :: D) T '.'
    · have : 0 < D.length := List.length_pos.mpr hD
      omega
    · have : 0 < T.length := List.length_pos.mpr hT
      simp only [List.length_append, List.length_cons]
      omega
  · rintro ⟨hws, hcount, hhead, i, j, hi, hj, hij, hjlen⟩
    obtain ⟨L, R, rfl, hLlen⟩ := split_at_index cs i '@' hi
    have hj' : R[j - i - 1]? = some '.' := by
      have h1 : (L ++ '@' :: R)[j]? = ('@' :: R)[j - L.length]? :=
        List.getElem?_append_right (by omega)
      rw [h1] at hj
      have h2 : j - L.length = (j - i - 1) + 1 := by omega
      rw [h2, List.getElem?_cons_succ] at hj
      exact hj
    obtain ⟨D, T, rfl, hDlen⟩ := split_at_index R (j - i - 1) '.' hj'
    have hne : (('.' : Char) == '@') = false := by decide
    simp only [List.count_append, List.count_cons, beq_self_eq_true, if_true, hne,
      Bool.false_eq_true, if_false] at hcount
    have hLat : ('@' : Char) ∉ L := List.count_eq_zero.mp (by omega)
    have hDat : ('@' : Char) ∉ D := List.count_eq_zero.mp (by omega)
    have hTat : ('@' : Char) ∉ T := List.count_eq_zero.mp (by omega)
    have hLne : L ≠ [] := by
      rintro rfl
      exact hhead rfl
    have hDne : D ≠ [] := by
      rintro rfl
      simp at hDlen
      omega
    have hTne : T ≠ [] := by
      rintro rfl
      simp only [List.length_append, List.length_cons, List.length_nil] at hjlen
      omega
    refine ⟨L, D, T, rfl, ⟨hLne, ?_⟩, ⟨hDne, ?_⟩, ⟨hTne, ?_⟩⟩
    · intro c hc
      exact ⟨hws c (by simp [hc]), fun h => hLat (h ▸ hc)⟩
    · intro c hc
      exact ⟨hws c (by simp [hc]), fun h => hDat (h ▸ hc)⟩
    · intro c hc
      exact ⟨hws c (by simp [hc]), fun h => hTat (h ▸ hc)⟩

theorem mem_singleton_if (c : Bool) (m x : String) :
    x ∈ (if c then [m] else []) ↔ c = true ∧ x = m := by
  cases c <;> simp

theorem email_message_mem (clock : Clock) (d : FormData) :
    "Please enter a valid email address" ∈ validateBookingErrors clock d ↔
      d.customerEmail ≠ "" ∧ emailRegex.test d.customerEmail = false := by
  unfold validateBookingErrors
  simp only [pushIf_eq, List.mem_append, mem_singleton_if, List.nil_append]
  have n1 : ¬ "Please enter a valid email address" = "Please select a service type" := by decide
  have n2 : ¬ "Please enter a valid email address" = "Please select a date" := by decide
  have n3 : ¬ "Please enter a valid email address" = "Please select a time slot" := by decide
  have n4 : ¬ "Please enter a valid email address" = "Please enter your name" := by decide
  have n5 : ¬ "Please enter a valid email address" = "Please enter your email" := by decide
  have n6 : ¬ "Please enter a valid email address" = "Please enter your phone number" := by
    decide
  have n7 : ¬ "Please enter a valid email address" = "Please enter your address" := by decide
  have n9 : ¬ "Please enter a valid email address" = "Please select a future date" := by decide
  simp only [n1, n2, n3, n4, n5, n6, n7, n9, and_false, or_false, false_or, and_true,
    strTruthy_eq, Bool.and_eq_true, bne_iff_ne, ne_eq, Bool.not_eq_true']

/-- C12: for a non-empty `customerEmail`, `validateBooking` emits 'Please enter a
valid email address' exactly when the e-mail is not of the form
`L + '@' + D + '.' + T` with `L`, `D`, `T` non-empty and free of whitespace and
`@`; that form is the same as: no whitespace, exactly one `@`, not in first
place, and some `.` after the `@` that neither follows it directly nor is the
last character.  For the empty e-mail the message is never emitted. -/
theorem email_rule (clock : Clock) (d : FormData) :
    (d.customerEmail ≠ "" →
      ("Please enter a valid email address" ∈ validateBookingErrors clock d ↔
        ¬ IsEmailForm d.customerEmail.data)) ∧
    (IsEmailForm d.customerEmail.data ↔ IsEmailShape d.customerEmail.data) ∧
    (d.customerEmail = "" →
      "Please enter a valid email address" ∉ validateBookingErrors clock d) := by
  refine ⟨?_, emailForm_iff_shape _, ?_⟩
  · intro hne
    rw [email_message_mem, ← emailRegex_test, Bool.not_eq_true]
    exact ⟨fun h => h.2, fun h => ⟨hne, h⟩⟩
  · intro hempty
    rw [email_message_mem]
    exact fun h => h.1 hempty

/-- C12 at a well-formed e-mail, at one without a dot after the `@`, and at the
empty one. -/
theorem email_rule_witness :
    ("Please enter a valid email address" ∈
        validateBookingErrors noonWestOfUtc (formDataOf sameDaySubmission) ↔
      ¬ IsEmailForm "ann@example.com".data) ∧
    ("Please enter a valid email address" ∈
        validateBookingErrors noonWestOfUtc
          { formDataOf sameDaySubmission with customerEmail := "ann@example" } ↔
      ¬ IsEmailForm "ann@example".data) ∧
    "Please enter a valid email address" ∉
        validateBookingErrors noonWestOfUtc
          { formDataOf sameDaySubmission with customerEmail := "" } :=
  ⟨(email_rule noonWestOfUtc (formDataOf sameDaySubmission)).1 (by decide),
   (email_rule noonWestOfUtc
      { formDataOf sameDaySubmission with customerEmail := "ann@example" }).1 (by decide),
   (email_rule noonWestOfUtc
      { formDataOf sameDaySubmission with customerEmail := "" }).2.2 rfl⟩

/-- C13 (the code departs from the claim): the catalog entries give 89, 149, 199
and their names, but for `constructor` and `toString`, which are no catalog
entries, `prices[serviceType]` and `names[serviceType]` find the member the
object literal inherits from `Object.prototype`; that value is truthy, so `||`
returns it, and the result is neither the home price 89 nor the home name. -/
theorem getServicePrice_returns_inherited_member :
    getServicePrice "home" = Lookup.own 89 ∧
    getServicePrice "office" = Lookup.own 149 ∧
    getServicePrice "deep" = Lookup.own 199 ∧
    getServiceName "home" = Lookup.own "Home Cleaning" ∧
    getServiceName "office" = Lookup.own "Office Cleaning" ∧
    getServiceName "deep" = Lookup.own "Deep Cleaning" ∧
    getServicePrice "constructor" = Lookup.inherited "constructor" ∧
    getServicePrice "toString" = Lookup.inherited "toString" ∧
    getServiceName "constructor" = Lookup.inherited "constructor" ∧
    getServiceName "toString" = Lookup.inherited "toString" ∧
    getServicePrice "constructor" ≠ Lookup.own 89 ∧
    getServiceName "toString" ≠ Lookup.own "Home Cleaning" := by
  decide

/-- Where the fallback of the catalog does apply: an identifier that is neither
a catalog entry nor a property name of `Object.prototype` gets the home price
and the home name. -/
theorem catalog_fallback (serviceType : String)
    (hcatalog : serviceType ∉ ["home", "office", "deep"])
    (hproto : serviceType ∉ objectPrototypeKeys) :
    getServicePrice serviceType = Lookup.own 89 ∧
    getServiceName serviceType = Lookup.own "Home Cleaning" := by
  simp only [List.mem_cons, List.mem_singleton, List.not_mem_nil, or_false, not_or] at hcatalog
  obtain ⟨h1, h2, h3⟩ := hcatalog
  have e1 : (serviceType == "home") = false := by simpa using h1
  have e2 : (serviceType == "office") = false := by simpa using h2
  have e3 : (serviceType == "deep") = false := by simpa using h3
  simp [getServicePrice, getServiceName, objectGet, List.lookup, e1, e2, e3, hproto]

end SparkleClean
